import Mathlib

/-!
Verification development for the raw-TCP HTTP/1.1 server in `http-server.js`
(final version of the pipeline: `parseRequest`, `createResponse`, `handleGET`,
`handlePOST` and the connection handler in `start`).

The JavaScript code is shallowly embedded: JS strings become Lean `String`
(a list of characters; JS is UTF-16, so lengths agree on the basic plane),
JS objects used as string maps become association lists with JS property
semantics (`jsInsert`: update in place on an existing key, append otherwise),
`undefined`-able values become `Option`, and a thrown exception becomes
`none` in an `Option` result.  Impure built-ins that the handlers interpolate
into response bodies (timestamps, `process.uptime`, `JSON.parse`,
`JSON.stringify`) are passed in explicitly through an `Env` record.
-/

/-- Substring test on character lists; `containsSub pat l` is true iff `pat`
occurs contiguously in `l`.  Models JS `String.prototype.includes`. -/
def containsSub (pat : List Char) : List Char → Bool
  | [] => pat.isEmpty
  | c :: t => List.isPrefixOf pat (c :: t) || containsSub pat t

/-- JS `s.includes(pat)`. -/
def strContains (s pat : String) : Bool := containsSub pat.data s.data

/-- True iff `pat` is a prefix of `s`. -/
def strStartsWith (s pat : String) : Bool := List.isPrefixOf pat.data s.data

/-- True iff `pat` is a suffix of `s`. -/
def strEndsWith (s pat : String) : Bool := List.isSuffixOf pat.data s.data

/-- Splitting a character list on a (non-empty) separator, scanning left to
right without overlap; models JS `String.prototype.split` with a non-empty
string separator.  `acc` holds the current piece reversed; `skip` counts
separator characters still to be consumed after a match (so the recursion
is structural on the subject list). -/
def splitListAux (sep : List Char) : Nat → List Char → List Char → List (List Char)
  | _, acc, [] => [acc.reverse]
  | skip + 1, acc, _ :: t => splitListAux sep skip acc t
  | 0, acc, c :: t =>
    if List.isPrefixOf sep (c :: t) then
      acc.reverse :: splitListAux sep (sep.length - 1) [] t
    else
      splitListAux sep 0 (c :: acc) t

/-- JS `s.split(sep)` for a non-empty separator. -/
def jsSplit (sep s : String) : List String :=
  (splitListAux sep.data 0 [] s.data).map (fun l => ⟨l⟩)

/-- JS `Array.prototype.join(sep)`. -/
def jsJoin (sep : String) : List String → String
  | [] => ""
  | [x] => x
  | x :: xs => x ++ sep ++ jsJoin sep xs

/-- JS object property write `m[k] = v` on an object used as a string map:
if the key is present its value is replaced in place, otherwise the pair is
appended (JS objects preserve insertion order of string keys). -/
def jsInsert (m : List (String × String)) (k v : String) : List (String × String) :=
  if m.any (fun p => p.1 == k) then m.map (fun p => if p.1 == k then (k, v) else p)
  else m ++ [(k, v)]

/-- JS object property read `m[k]`, `undefined` becoming `none`. -/
def jsGet (m : List (String × String)) (k : String) : Option String :=
  (m.find? (fun p => p.1 == k)).map (fun p => p.2)

/-- JS `x || d` for a possibly-`undefined` string `x`: both `undefined` and
the empty string are falsy and give the default. -/
def jsOrStr (x : Option String) (d : String) : String :=
  match x with
  | none => d
  | some s => if s = "" then d else s

/-- JS string interpolation of a possibly-`undefined` string:
`undefined` prints as the literal text `undefined`. -/
def jsToStr : Option String → String
  | none => "undefined"
  | some s => s

/-- JS `s.trim()`: strip leading and trailing whitespace. -/
def jsTrim (s : String) : String :=
  ⟨((s.data.dropWhile Char.isWhitespace).reverse.dropWhile Char.isWhitespace).reverse⟩

/-- JS `s.toLowerCase()`; header names in this server are ASCII, for which
`Char.toLower` coincides with the JS definition. -/
def jsToLower (s : String) : String := ⟨s.data.map Char.toLower⟩

/-- Value of a hexadecimal digit, `none` on a non-hex character. -/
def hexDigitVal (c : Char) : Option Nat :=
  if '0' ≤ c ∧ c ≤ '9' then some (c.toNat - '0'.toNat)
  else if 'a' ≤ c ∧ c ≤ 'f' then some (c.toNat - 'a'.toNat + 10)
  else if 'A' ≤ c ∧ c ≤ 'F' then some (c.toNat - 'A'.toNat + 10)
  else none

/-- First pass of `decodeURIComponent`: each `%XY` escape becomes a raw byte
(`Sum.inr`), every other character passes through (`Sum.inl`); a `%` not
followed by two hex digits is a `URIError`, modelled as `none`. -/
def pctTokens : List Char → Option (List (Char ⊕ Nat))
  | [] => some []
  | '%' :: a :: b :: rest => do
    let h ← hexDigitVal a
    let l ← hexDigitVal b
    let t ← pctTokens rest
    pure (Sum.inr (h * 16 + l) :: t)
  | '%' :: _ => none
  | c :: rest => do
    let t ← pctTokens rest
    pure (Sum.inl c :: t)

/-- A UTF-8 continuation byte carried by a token, with its 6 payload bits. -/
def contByte : Char ⊕ Nat → Option Nat
  | Sum.inr b => if 0x80 ≤ b ∧ b ≤ 0xBF then some (b - 0x80) else none
  | Sum.inl _ => none

/-- Second pass of `decodeURIComponent`: decode the escape bytes as UTF-8
(rejecting overlong forms, surrogates and out-of-range values, as the JS
built-in does), letting literal characters pass through. -/
def utf8DecodeToks : List (Char ⊕ Nat) → Option (List Char)
  | [] => some []
  | Sum.inl c :: t => (utf8DecodeToks t).map (fun r => c :: r)
  | Sum.inr b :: t =>
    if b < 0x80 then (utf8DecodeToks t).map (fun r => Char.ofNat b :: r)
    else if b < 0xC2 then none
    else if b ≤ 0xDF then
      match t with
      | t1 :: t' => do
        let c1 ← contByte t1
        let r ← utf8DecodeToks t'
        pure (Char.ofNat ((b - 0xC0) * 64 + c1) :: r)
      | [] => none
    else if b ≤ 0xEF then
      match t with
      | t1 :: t2 :: t' => do
        let c1 ← contByte t1
        let c2 ← contByte t2
        let v := (b - 0xE0) * 4096 + c1 * 64 + c2
        if v < 0x800 ∨ (0xD800 ≤ v ∧ v ≤ 0xDFFF) then none
        else do
          let r ← utf8DecodeToks t'
          pure (Char.ofNat v :: r)
      | _ => none
    else if b ≤ 0xF4 then
      match t with
      | t1 :: t2 :: t3 :: t' => do
        let c1 ← contByte t1
        let c2 ← contByte t2
        let c3 ← contByte t3
        let v := (b - 0xF0) * 262144 + c1 * 4096 + c2 * 64 + c3
        if v < 0x10000 ∨ 0x10FFFF < v then none
        else do
          let r ← utf8DecodeToks t'
          pure (Char.ofNat v :: r)
      | _ => none
    else none

/-- Model of the JS built-in `decodeURIComponent`; `none` models a thrown
`URIError`. -/
def decodeURIComponent (s : String) : Option String := do
  let toks ← pctTokens s.data
  let cs ← utf8DecodeToks toks
  pure ⟨cs⟩

/-- A parsed HTTP request as produced by `parseRequest` in the source:
`method`, `path` and `version` come from array destructuring of the split
request line, so each may be `undefined` (`none`). -/
structure ParsedRequest where
  method : Option String
  path : Option String
  version : Option String
  headers : List (String × String)
  body : String
deriving Repr, DecidableEq

/-- One header line, split at the FIRST `:`; the name is lower-cased, the
value trimmed.  A line without a `:` is `none` (silently skipped). -/
def parseHeaderKV (line : String) : Option (String × String) :=
  match line.data.findIdx? (fun c => c == ':') with
  | none => none
  | some i => some (jsToLower ⟨line.data.take i⟩, jsTrim ⟨line.data.drop (i + 1)⟩)

/-- Processing of one header line against the headers object (loop body of
`parseRequest`). -/
def parseHeaderLine (m : List (String × String)) (line : String) : List (String × String) :=
  match parseHeaderKV line with
  | none => m
  | some kv => jsInsert m kv.1 kv.2

/-- The header-scanning loop of `parseRequest`: process lines until the first
empty line; return the headers object and, if an empty line was found, the
remaining lines (the body lines). -/
def scanHeaders (hs : List (String × String)) : List String → List (String × String) × Option (List String)
  | [] => (hs, none)
  | line :: rest =>
    if line = "" then (hs, some rest)
    else scanHeaders (parseHeaderLine hs line) rest

/-- `parseRequest(data)` from the source: split on CRLF, destructure the
request line on single spaces, scan headers until the first empty line, and
rejoin the remaining lines with CRLF as the body (empty when no empty line
exists). -/
def parseRequest (data : String) : ParsedRequest :=
  let lines := jsSplit "\r\n" data
  let requestLine := lines.headD ""
  let toks := jsSplit " " requestLine
  let scanned := scanHeaders [] (lines.drop 1)
  { method := toks[0]?
    path := toks[1]?
    version := toks[2]?
    headers := scanned.1
    body :=
      match scanned.2 with
      | some bls => jsJoin "\r\n" bls
      | none => "" }

/-- The fixed `statusMessages` table of `createResponse` (note: no entry for
405), with the `|| UnknownObject` fallback. -/
def statusMessage (statusCode : Nat) : String :=
  if statusCode = 200 then "OK"
  else if statusCode = 201 then "Created"
  else if statusCode = 400 then "Bad Request"
  else if statusCode = 404 then "Not Found"
  else if statusCode = 500 then "Internal Server Error"
  else "Unknown"

/-- `createResponse(statusCode, headers, body)` from the source: status line
with the literal `HTTP/1.1`, the default headers object spread-merged with
the caller headers (`\x7b...defaults, ...headers\x7d`), one `name: value`
line per entry, a blank line, then the body.  `Content-Length` is
`Buffer.byteLength(body)`, the UTF-8 byte length. -/
def createResponse (statusCode : Nat) (headers : List (String × String)) (body : String) : String :=
  let msg := statusMessage statusCode
  let response := "HTTP/1.1 " ++ toString statusCode ++ " " ++ msg ++ "\r\n"
  let defaultHeaders :=
    List.foldl (fun m p => jsInsert m p.1 p.2)
      [("Content-Type", "text/plain"),
       ("Content-Length", toString (String.utf8ByteSize body)),
       ("Connection", "close")]
      headers
  let response := List.foldl (fun r p => r ++ (p.1 ++ ": " ++ p.2 ++ "\r\n")) response defaultHeaders
  response ++ "\r\n" ++ body

/-- JS values as produced by `JSON.parse` or built literally by `handlePOST`
(the object literal `\x7b content: request.body \x7d` and the form-data object). -/
inductive Js where
  | jnull : Js
  | jbool : Bool → Js
  | jnum : Int → Js
  | jstr : String → Js
  | jarr : List Js → Js
  | jobj : List (String × Js) → Js

/-- JS `Object.keys(v).length`.  `Object.keys` coerces its argument with
`ToObject`, which THROWS a `TypeError` on `null` (modelled as `none`); a
string exposes one index key per code unit, arrays one per element, other
primitives none. -/
def jsKeysLen : Js → Option Nat
  | Js.jnull => none
  | Js.jbool _ => some 0
  | Js.jnum _ => some 0
  | Js.jstr s => some s.length
  | Js.jarr l => some l.length
  | Js.jobj l => some l.length

/-- The impure built-ins the handlers call, passed explicitly: the wall-clock
interpolations of the route bodies, the configured port (`this.port`), and
the JSON built-ins (`JSON.parse` returning `none` for a thrown `SyntaxError`,
and `JSON.stringify(-, null, 2)`). -/
structure Env where
  nowISO : String
  uptimeFixed : String
  dateNow : String
  port : Nat
  jsonParse : String → Option Js
  jsonStringify2 : Js → String
def getRootBody (path version host userAgent accept queryDisplayed : String) : String :=
  "GET Request Received Successfully!\n\n                    RFC 7231 Compliance:\n                    - Method: GET (Safe and Idempotent)\n                    - Path: " ++
    path ++
    "\n                    - Version: " ++
    version ++
    "\n\n                    Request Details:\n                    - Host: " ++
    host ++
    "\n                    - User-Agent: " ++
    userAgent ++
    "\n                    - Accept: " ++
    accept ++
    "\n\n                    Query Parameters: " ++
    queryDisplayed ++
    "\n\n                    RFC References:\n                    - RFC 7231: HTTP/1.1 Semantics and Content (GET method)\n                    - RFC 3986: Uniform Resource Identifier (URI) Generic Syntax\n                    - RFC 7230: HTTP/1.1 Message Syntax and Routing"

def getStatusBody (nowISO uptimeFixed port : String) : String :=
  "Server Status (GET /api/status)\n\n                    RFC 7231: GET method for resource retrieval\n                    Status: Running\n                    Timestamp: " ++
    nowISO ++
    "\n                    Uptime: " ++
    uptimeFixed ++
    " seconds\n                    Port: " ++
    port ++
    "\n\n                    RFC Compliance:\n                    - Safe: GET requests should not cause side effects\n                    - Idempotent: Multiple identical GET requests have same effect\n                    - Cacheable: GET responses can be cached (RFC 7234)"

def getInfoBody (method path version headersCount : String) : String :=
  "HTTP Server Information (GET /api/info)\n\n                    RFC 7231 GET Method Characteristics:\n                    1. Safe: No side effects on server state\n                    2. Idempotent: Multiple requests produce same result\n                    3. Cacheable: Responses can be cached\n                    4. Body: Should not have request body (RFC 7231 Section 4.3.1)\n\n                    Request Information:\n                    - Method: " ++
    method ++
    "\n                    - Path: " ++
    path ++
    "\n                    - Version: " ++
    version ++
    "\n                    - Headers Count: " ++
    headersCount ++
    "\n\n                    RFC References:\n                    - RFC 7231 Section 4.3.1: GET method definition\n                    - RFC 7234: HTTP/1.1 Caching\n                    - RFC 3986: URI syntax and query parameters"

def getNotFoundBody (path : String) : String :=
  "404 Not Found\n\n                    RFC 7231: GET method for resource retrieval\n                    Requested path \x27" ++
    path ++
    "\x27 not found.\n\n                    Available GET endpoints:\n                    - GET / - Welcome page\n                    - GET /api/status - Server status\n                    - GET /api/info - Server information\n\n                    RFC 7231 Section 6.5.4: 404 Not Found status code\n                    The origin server did not find a current representation for the target resource."

def postUsersBody (path version contentType bodyLen host stringified : String) : String :=
  "POST Request Processed Successfully!\n\n                    RFC 7231 Compliance:\n                    - Method: POST (Resource Creation)\n                    - Path: " ++
    path ++
    "\n                    - Version: " ++
    version ++
    "\n                    - Status: 201 Created\n\n                    Request Details:\n                    - Content-Type: " ++
    contentType ++
    "\n                    - Body Length: " ++
    bodyLen ++
    " bytes\n                    - Host: " ++
    host ++
    "\n\n                    Parsed Body:\n                    " ++
    stringified ++
    "\n\n                    RFC 7231 Section 4.3.3: POST method characteristics:\n                    1. Not Safe: May cause side effects on server\n                    2. Not Idempotent: Multiple requests may have different effects\n                    3. Not Cacheable: Responses should not be cached\n                    4. Body: Contains data to be processed\n\n                    RFC References:\n                    - RFC 7231 Section 4.3.3: POST method definition\n                    - RFC 7231 Section 6.3.2: 201 Created status code\n                    - RFC 3986: URI syntax and resource identification"

def postDataBody (nowISO stringified contentType fieldsCount dateNow : String) : String :=
  "Data Processing Complete (POST /api/data)\n\n                    RFC 7231: POST method for data processing\n                    Status: 201 Created\n                    Timestamp: " ++
    nowISO ++
    "\n\n                    Received Data:\n                    " ++
    stringified ++
    "\n\n                    Processing Results:\n                    - Data Type: " ++
    contentType ++
    "\n                    - Fields Count: " ++
    fieldsCount ++
    "\n                    - Processing Time: " ++
    dateNow ++
    "ms\n\n                    RFC Compliance:\n                    - Not Safe: POST may cause side effects\n                    - Not Idempotent: Multiple requests may have different effects\n                    - Not Cacheable: Responses should not be cached\n                    - Body Required: POST requests should have a body (RFC 7231 Section 4.3.3)"

def postEchoBody (method path contentType bodyLen stringified : String) : String :=
  "Echo Response (POST /api/echo)\n\n                    RFC 7231: POST method for data submission\n                    Status: 200 OK\n\n                    Original Request:\n                    - Method: " ++
    method ++
    "\n                    - Path: " ++
    path ++
    "\n                    - Content-Type: " ++
    contentType ++
    "\n                    - Body Length: " ++
    bodyLen ++
    " bytes\n\n                    Echoed Data:\n                    " ++
    stringified ++
    "\n\n                    RFC 7231 Section 4.3.3: POST method characteristics:\n                    - Purpose: Submit data to be processed\n                    - Body: Contains the data to be processed\n                    - Response: Contains the result of processing"

def postNotFoundBody (path : String) : String :=
  "404 Not Found\n\n                    RFC 7231: POST method for resource creation\n                    Requested path \x27" ++
    path ++
    "\x27 not found.\n\n                    Available POST endpoints:\n                    - POST /api/users - Create user resource\n                    - POST /api/data - Process data\n                    - POST /api/echo - Echo back request data\n\n                    RFC 7231 Section 6.5.4: 404 Not Found status code\n                    The origin server did not find a current representation for the target resource."

/-- One iteration of the query-string / form-body loop: split the pair on
`=`, destructure into `key` (first segment, always present) and `value`
(second segment, `undefined` when there is no `=`), skip the pair when the
key is falsy (empty), otherwise store percent-decoded key and value
(`value || ""` first).  A `URIError` from `decodeURIComponent` propagates
as `none`. -/
def addUrlPair (m : List (String × String)) (param : String) : Option (List (String × String)) :=
  let parts := jsSplit "=" param
  let key := parts.headD ""
  if key = "" then some m
  else do
    let dk ← decodeURIComponent key
    let dv ← decodeURIComponent (jsOrStr parts[1]? "")
    pure (jsInsert m dk dv)

/-- The `split("&").forEach(...)` loop shared verbatim by the GET
query-string parser and the POST form-body parser. -/
def parseUrlPairs (s : String) : Option (List (String × String)) :=
  List.foldlM addUrlPair [] (jsSplit "&" s)

/-- `Object.entries(queryParams).map(([k, v]) => k=v).join(", ")` with the
`"None"` fallback, from the `/` route body. -/
def queryDisplay (qp : List (String × String)) : String :=
  if qp.length > 0 then jsJoin ", " (qp.map (fun p => p.1 ++ "=" ++ p.2)) else "None"

/-- `handleGET(request)` from the source.  `none` models a thrown exception:
`request.path` being `undefined` (`.split` on `undefined`), or a `URIError`
from percent-decoding the query string (not caught inside this handler). -/
def handleGET (env : Env) (request : ParsedRequest) : Option String :=
  match request.path with
  | none => none
  | some p =>
    let urlParts := jsSplit "?" p
    let path := urlParts.headD ""
    let queryString := jsOrStr urlParts[1]? ""
    match (if queryString = "" then some [] else parseUrlPairs queryString) with
    | none => none
    | some queryParams =>
      if path = "/" then
        some (createResponse 200 [("Content-Type", "text/plain")]
          (getRootBody path (jsToStr request.version)
            (jsOrStr (jsGet request.headers "host") "Not specified")
            (jsOrStr (jsGet request.headers "user-agent") "Not specified")
            (jsOrStr (jsGet request.headers "accept") "Not specified")
            (queryDisplay queryParams)))
      else if path = "/api/status" then
        some (createResponse 200 [("Content-Type", "text/plain")]
          (getStatusBody env.nowISO env.uptimeFixed (toString env.port)))
      else if path = "/api/info" then
        some (createResponse 200 [("Content-Type", "text/plain")]
          (getInfoBody (jsToStr request.method) (jsToStr request.path) (jsToStr request.version)
            (toString request.headers.length)))
      else
        some (createResponse 404 [("Content-Type", "text/plain")] (getNotFoundBody path))

/-- `request.headers["content-type"] || "text/plain"` from `handlePOST`. -/
def postContentType (request : ParsedRequest) : String :=
  jsOrStr (jsGet request.headers "content-type") "text/plain"

/-- The body-parsing `try` block of `handlePOST`: JSON when the declared
content type contains `application/json`, `&`/`=` pairs when it contains
`application/x-www-form-urlencoded`, otherwise the raw body wrapped as
`\x7b content: body \x7d`.  `none` models a caught parse error. -/
def postParseBody (env : Env) (contentType body : String) : Option Js :=
  if strContains contentType "application/json" then env.jsonParse body
  else if strContains contentType "application/x-www-form-urlencoded" then
    (parseUrlPairs body).map (fun l => Js.jobj (l.map (fun p => (p.1, Js.jstr p.2))))
  else some (Js.jobj [("content", Js.jstr body)])

/-- `handlePOST(request)` from the source.  A body-parsing failure is caught
and answered with 400; the route switch then dispatches on the exact path
with `statusCode = 201`, or 404 on an unknown path.  The outer `none` models
the uncaught `TypeError` thrown by `Object.keys(null)` in the `/api/data`
body when the parsed JSON body is `null`. -/
def handlePOST (env : Env) (request : ParsedRequest) : Option String :=
  let contentType := postContentType request
  match postParseBody env contentType request.body with
  | none =>
    some (createResponse 400 [("Content-Type", "text/plain")]
      "Bad Request - Invalid request body format")
  | some parsedBody =>
    if request.path = some "/api/users" then
      some (createResponse 201 [("Content-Type", "text/plain")]
        (postUsersBody (jsToStr request.path) (jsToStr request.version) contentType
          (toString request.body.length)
          (jsOrStr (jsGet request.headers "host") "Not specified")
          (env.jsonStringify2 parsedBody)))
    else if request.path = some "/api/data" then
      (jsKeysLen parsedBody).map (fun n =>
        createResponse 201 [("Content-Type", "text/plain")]
          (postDataBody env.nowISO (env.jsonStringify2 parsedBody) contentType
            (toString n) env.dateNow))
    else if request.path = some "/api/echo" then
      some (createResponse 201 [("Content-Type", "text/plain")]
        (postEchoBody (jsToStr request.method) (jsToStr request.path) contentType
          (toString request.body.length) (env.jsonStringify2 parsedBody)))
    else
      some (createResponse 404 [("Content-Type", "text/plain")]
        (postNotFoundBody (jsToStr request.path)))

/-- The method dispatch switch of the connection handler in `start`:
`GET` and `POST` go to their handlers, anything else (including an
`undefined` method) gets a 405 with the method interpolated into the body. -/
def route (env : Env) (request : ParsedRequest) : Option String :=
  if request.method = some "GET" then handleGET env request
  else if request.method = some "POST" then handlePOST env request
  else
    some (createResponse 405 [("Content-Type", "text/plain")]
      ("405 Method Not Allowed - Method \x27" ++ jsToStr request.method ++ "\x27 not supported"))

/-- The `try/catch` around parse-and-dispatch in `start`: any exception from
the pipeline is answered with a fixed 400 response. -/
def connResponse (env : Env) (data : String) : String :=
  match route env (parseRequest data) with
  | some r => r
  | none => createResponse 400 [("Content-Type", "text/plain")] "Bad Request - Invalid HTTP format"

/-- The per-connection `data` event loop of `start`: chunks are appended to
the accumulated buffer; once the buffer contains the four bytes CRLFCRLF the
whole buffer is parsed and answered (after which the socket is ended, so
later chunks are not modelled).  `none` means the connection never became
ready. -/
def feedChunks (env : Env) (buf : String) : List String → Option String
  | [] => none
  | chunk :: rest =>
    let data := buf ++ chunk
    if strContains data "\r\n\r\n" then some (connResponse env data)
    else feedChunks env data rest

/-- Concatenation of a list of strings (the accumulated buffer formed by a
sequence of socket chunks). -/
def strConcat : List String → String
  | [] => ""
  | s :: t => s ++ strConcat t

/-- A concrete environment for concrete runs: a fixed clock and a JSON
parser that always fails (no test below feeds it JSON). -/
def defaultEnv : Env where
  nowISO := "2026-01-01T00:00:00.000Z"
  uptimeFixed := "1.00"
  dateNow := "1767225600000"
  port := 4000
  jsonParse := fun _ => none
  jsonStringify2 := fun _ => ""

/-- An environment whose JSON parser behaves like the real `JSON.parse` on
the input `null` (it returns the JS value `null`), used to exercise the
`/api/data` route on a JSON `null` body. -/
def nullEnv : Env where
  nowISO := "2026-01-01T00:00:00.000Z"
  uptimeFixed := "1.00"
  dateNow := "1767225600000"
  port := 4000
  jsonParse := fun s => if s = "null" then some Js.jnull else none
  jsonStringify2 := fun _ => "null"

/-- One `name: value` CRLF line per header, in order (the serialization of
the header block). -/
def headerBlock : List (String × String) → String
  | [] => ""
  | p :: t => p.1 ++ ": " ++ p.2 ++ "\r\n" ++ headerBlock t

/-- The header set the specification describes for `createResponse`: the
three defaults first, in the order Content-Type, Content-Length, Connection,
each overridden by a caller header of the same (case-sensitive) name, then
the non-overlapping caller headers in supplied order. -/
def specMergedHeaders (hs : List (String × String)) (body : String) : List (String × String) :=
  [("Content-Type", (jsGet hs "Content-Type").getD "text/plain"),
   ("Content-Length", (jsGet hs "Content-Length").getD (toString (String.utf8ByteSize body))),
   ("Connection", (jsGet hs "Connection").getD "close")]
  ++ hs.filter (fun p => !(p.1 == "Content-Type" || p.1 == "Content-Length" || p.1 == "Connection"))

/-- The response layout the specification describes: status line with the
literal `HTTP/1.1` version token, the merged header lines, a blank line,
then the body. -/
def specResponse (sc : Nat) (hs : List (String × String)) (body : String) : String :=
  "HTTP/1.1 " ++ toString sc ++ " " ++ statusMessage sc ++ "\r\n" ++
    headerBlock (specMergedHeaders hs body) ++ "\r\n" ++ body

/-- Modelled from the spec words of the query-pair claim, for comparison
with the code: each pair is split on the FIRST `=`, the value being
everything after that first `=` (empty when the pair has no `=`); keys and
values are percent-decoded and pairs with an empty key are skipped. -/
def claimedFirstEqPair (m : List (String × String)) (param : String) : Option (List (String × String)) :=
  match param.data.findIdx? (fun c => c == '=') with
  | none =>
    if param = "" then some m
    else do
      let dk ← decodeURIComponent param
      let dv ← decodeURIComponent ""
      pure (jsInsert m dk dv)
  | some i =>
    let key : String := ⟨param.data.take i⟩
    let value : String := ⟨param.data.drop (i + 1)⟩
    if key = "" then some m
    else do
      let dk ← decodeURIComponent key
      let dv ← decodeURIComponent value
      pure (jsInsert m dk dv)

/-- Modelled from the spec words: the whole query string parsed with
first-`=` pair splitting. -/
def claimedFirstEqPairs (s : String) : Option (List (String × String)) :=
  List.foldlM claimedFirstEqPair [] (jsSplit "&" s)


theorem jsGet_nil (k : String) : jsGet [] k = none := rfl

theorem jsGet_cons (a b : String) (t : List (String × String)) (k : String) :
    jsGet ((a, b) :: t) k = if a = k then some b else jsGet t k := by
  simp only [jsGet, List.find?_cons]
  by_cases h : a = k
  · simp [h]
  · simp [h, beq_false_of_ne h]

theorem jsGet_append (m n : List (String × String)) (k : String) :
    jsGet (m ++ n) k = (jsGet m k).or (jsGet n k) := by
  simp only [jsGet, List.find?_append]
  cases List.find? (fun p => p.1 == k) m <;> simp [Option.or]

theorem jsGet_eq_none_iff (m : List (String × String)) (k : String) :
    jsGet m k = none ↔ ∀ p ∈ m, p.1 ≠ k := by
  simp only [jsGet, Option.map_eq_none', List.find?_eq_none, beq_iff_eq]

theorem any_key_eq_true_iff (m : List (String × String)) (k : String) :
    m.any (fun p => p.1 == k) = true ↔ ¬ jsGet m k = none := by
  rw [List.any_eq_true, jsGet_eq_none_iff]
  push_neg
  simp only [beq_iff_eq]

theorem jsInsert_of_none (m : List (String × String)) (a b : String)
    (h : jsGet m a = none) : jsInsert m a b = m ++ [(a, b)] := by
  have hany : m.any (fun p => p.1 == a) = false := by
    rw [← Bool.not_eq_true, any_key_eq_true_iff]
    simp [h]
  simp [jsInsert, hany]

theorem jsInsert_of_some (m : List (String × String)) (a b v : String)
    (h : jsGet m a = some v) :
    jsInsert m a b = m.map (fun p => if p.1 == a then (a, b) else p) := by
  have hany : m.any (fun p => p.1 == a) = true := by
    rw [any_key_eq_true_iff]
    simp [h]
  simp [jsInsert, hany]

theorem jsGet_map_replace (m : List (String × String)) (a b k : String) :
    jsGet (m.map (fun p => if p.1 == a then (a, b) else p)) k
      = if k = a then (jsGet m a).map (fun _ => b) else jsGet m k := by
  induction m with
  | nil => by_cases h : k = a <;> simp [jsGet, h]
  | cons q t ih =>
    obtain ⟨qk, qv⟩ := q
    by_cases hqa : qk = a <;> by_cases hka : k = a
    · subst hqa; subst hka
      simp [jsGet_cons, ih]
    · subst hqa
      have hak : ¬ qk = k := fun h => hka h.symm
      simp only [List.map_cons, beq_self_eq_true, if_true, jsGet_cons, if_neg hak, ih,
        if_neg hka]
    · subst hka
      simp only [List.map_cons, beq_false_of_ne hqa, Bool.false_eq_true, if_false, jsGet_cons,
        if_neg hqa, ih, if_pos rfl]
    · by_cases hqk : qk = k
      · subst hqk
        simp only [List.map_cons, beq_false_of_ne hqa, Bool.false_eq_true, if_false, jsGet_cons,
          if_pos rfl, if_neg hka, if_true]
      · simp only [List.map_cons, beq_false_of_ne hqa, Bool.false_eq_true, if_false, jsGet_cons,
          if_neg hqk, ih, if_neg hka]

theorem jsGet_jsInsert (m : List (String × String)) (a b k : String) :
    jsGet (jsInsert m a b) k = if k = a then some b else jsGet m k := by
  cases hm : jsGet m a with
  | none =>
    rw [jsInsert_of_none m a b hm, jsGet_append, jsGet_cons]
    by_cases hka : k = a
    · subst hka
      simp [hm, Option.or]
    · have hak : ¬ a = k := fun h => hka h.symm
      rw [if_neg hka, if_neg hak]
      cases hk : jsGet m k <;> simp [Option.or, jsGet]
  | some v =>
    rw [jsInsert_of_some m a b v hm, jsGet_map_replace]
    by_cases hka : k = a
    · simp [hka, hm]
    · simp [hka]

theorem mem_jsInsert (m : List (String × String)) (a b : String) (kv : String × String)
    (h : kv ∈ jsInsert m a b) : kv = (a, b) ∨ kv ∈ m := by
  by_cases hget : jsGet m a = none
  · rw [jsInsert_of_none m a b hget, List.mem_append] at h
    rcases h with h | h
    · right; exact h
    · left; simpa using h
  · obtain ⟨v, hv⟩ : ∃ v, jsGet m a = some v := by
      cases hs : jsGet m a with
      | none => exact absurd hs hget
      | some v => exact ⟨v, rfl⟩
    rw [jsInsert_of_some m a b v hv, List.mem_map] at h
    obtain ⟨q, hq, hrepl⟩ := h
    by_cases hqa : q.1 = a
    · left
      rw [← hrepl]
      simp [hqa]
    · right
      rw [← hrepl]
      simpa [beq_false_of_ne hqa] using hq

theorem jsGet_foldl_jsInsert (kvs : List (String × String)) (m : List (String × String))
    (k : String) :
    jsGet (List.foldl (fun acc p => jsInsert acc p.1 p.2) m kvs) k
      = match (kvs.filter (fun p => p.1 == k)).getLast? with
        | some kv => some kv.2
        | none => jsGet m k := by
  induction kvs generalizing m with
  | nil => simp
  | cons p t ih =>
    obtain ⟨pk, pv⟩ := p
    rw [List.foldl_cons, ih]
    by_cases hpk : pk = k
    · subst hpk
      simp only [List.filter_cons, beq_self_eq_true, if_pos, List.getLast?_cons]
      cases hg : (t.filter (fun p => p.1 == pk)).getLast? with
      | none => simp [hg, jsGet_jsInsert]
      | some kv => simp [hg]
    · simp only [List.filter_cons, beq_false_of_ne hpk, Bool.false_eq_true, if_false]
      cases hg : (t.filter (fun p => p.1 == k)).getLast? with
      | none =>
        simp only [hg, jsGet_jsInsert]
        rw [if_neg (fun h => hpk h.symm)]
      | some kv => simp [hg]

theorem foldl_jsInsert_nodup (kvs : List (String × String)) (m : List (String × String))
    (hnd : (kvs.map Prod.fst).Nodup) :
    List.foldl (fun acc p => jsInsert acc p.1 p.2) m kvs
      = m.map (fun q => (q.1, (jsGet kvs q.1).getD q.2))
        ++ kvs.filter (fun p => (jsGet m p.1).isNone) := by
  induction kvs generalizing m with
  | nil =>
    simp only [List.foldl_nil, List.filter_nil, List.append_nil]
    conv_lhs => rw [← List.map_id m]
    apply List.map_congr_left
    intro q _
    simp [jsGet]
  | cons p t ih =>
    obtain ⟨pk, pv⟩ := p
    simp only [List.map_cons, List.nodup_cons] at hnd
    obtain ⟨hpk_not, hnd_t⟩ := hnd
    have hget_t_pk : jsGet t pk = none := by
      rw [jsGet_eq_none_iff]
      intro q hq hq1
      exact hpk_not (hq1 ▸ List.mem_map_of_mem Prod.fst hq)
    rw [List.foldl_cons, ih _ hnd_t]
    cases hm : jsGet m pk with
    | some v =>
      rw [jsInsert_of_some m pk pv v hm]
      have hmap : (m.map (fun p => if p.1 == pk then (pk, pv) else p)).map
          (fun q => (q.1, (jsGet t q.1).getD q.2))
          = m.map (fun q => (q.1, (jsGet ((pk, pv) :: t) q.1).getD q.2)) := by
        rw [List.map_map]
        apply List.map_congr_left
        intro q hq
        by_cases hq1 : q.1 = pk
        · simp [Function.comp, hq1, jsGet_cons, hget_t_pk]
        · have hqp : ¬ pk = q.1 := fun h => hq1 h.symm
          simp only [Function.comp, beq_false_of_ne hq1, Bool.false_eq_true, if_false,
            jsGet_cons, if_neg hqp]
      have hfil : (t.filter (fun p => (jsGet (m.map (fun r => if r.1 == pk then (pk, pv) else r)) p.1).isNone))
          = t.filter (fun p => (jsGet m p.1).isNone) := by
        apply List.filter_congr
        intro q hq
        have hq1 : q.1 ≠ pk := by
          intro h
          exact hpk_not (h ▸ List.mem_map_of_mem Prod.fst hq)
        rw [jsGet_map_replace, if_neg hq1]
      have hfil2 : ((pk, pv) :: t).filter (fun p => (jsGet m p.1).isNone)
          = t.filter (fun p => (jsGet m p.1).isNone) := by
        simp [List.filter_cons, hm]
      rw [hmap, hfil, hfil2]
    | none =>
      rw [jsInsert_of_none m pk pv hm]
      have hmap : (m ++ [(pk, pv)]).map (fun q => (q.1, (jsGet t q.1).getD q.2))
          = m.map (fun q => (q.1, (jsGet ((pk, pv) :: t) q.1).getD q.2)) ++ [(pk, pv)] := by
        rw [List.map_append]
        congr 1
        · apply List.map_congr_left
          intro q hq
          have hq1 : q.1 ≠ pk := by
            intro h
            have := (jsGet_eq_none_iff m pk).mp hm q hq
            exact this h
          have hqp : ¬ pk = q.1 := fun h => hq1 h.symm
          simp only [jsGet_cons, if_neg hqp]
        · simp [hget_t_pk]
      have hfil : (t.filter (fun p => (jsGet (m ++ [(pk, pv)]) p.1).isNone))
          = t.filter (fun p => (jsGet m p.1).isNone) := by
        apply List.filter_congr
        intro q hq
        have hq1 : q.1 ≠ pk := by
          intro h
          exact hpk_not (h ▸ List.mem_map_of_mem Prod.fst hq)
        have hqp : ¬ pk = q.1 := fun h => hq1 h.symm
        rw [jsGet_append, jsGet_cons, if_neg hqp]
        cases jsGet m q.1 <;> simp [Option.or, jsGet]
      have hfil2 : ((pk, pv) :: t).filter (fun p => (jsGet m p.1).isNone)
          = (pk, pv) :: t.filter (fun p => (jsGet m p.1).isNone) := by
        simp [List.filter_cons, hm]
      rw [hmap, hfil, hfil2]
      simp

theorem foldl_parseHeaderLine_filterMap (lines : List String) (m : List (String × String)) :
    List.foldl parseHeaderLine m lines
      = List.foldl (fun acc kv => jsInsert acc kv.1 kv.2) m (lines.filterMap parseHeaderKV) := by
  induction lines generalizing m with
  | nil => simp
  | cons line rest ih =>
    rw [List.foldl_cons, List.filterMap_cons]
    cases hkv : parseHeaderKV line with
    | none => rw [ih]; simp [parseHeaderLine, hkv]
    | some kv => rw [ih]; simp [parseHeaderLine, hkv]

theorem scanHeaders_eq (ls : List String) (hs : List (String × String)) :
    scanHeaders hs ls
      = (List.foldl parseHeaderLine hs (ls.takeWhile (fun l => l != "")),
         match ls.dropWhile (fun l => l != "") with
         | [] => none
         | _ :: rest => some rest) := by
  induction ls generalizing hs with
  | nil => simp [scanHeaders]
  | cons line rest ih =>
    by_cases h : line = ""
    · subst h
      simp [scanHeaders, List.takeWhile_cons, List.dropWhile_cons]
    · rw [scanHeaders, if_neg h, ih]
      have hb : (line != "") = true := by simp [h]
      simp [List.takeWhile_cons, List.dropWhile_cons, hb]

theorem char_toLower_eq (d : Char) :
    Char.toLower d = if d.toNat ≥ 65 ∧ d.toNat ≤ 90 then Char.ofNat (d.toNat + 32) else d := rfl

theorem char_toLower_idem (c : Char) : Char.toLower (Char.toLower c) = Char.toLower c := by
  by_cases h : c.toNat ≥ 65 ∧ c.toNat ≤ 90
  · have h1 : Char.toLower c = Char.ofNat (c.toNat + 32) := by
      rw [char_toLower_eq, if_pos h]
    have hval : (c.toNat + 32).isValidChar := Or.inl (by omega)
    have htn : (Char.toLower c).toNat = c.toNat + 32 := by
      rw [h1, Char.ofNat, dif_pos hval]
      simp [Char.ofNatAux, Char.toNat, UInt32.toNat, UInt32.ofNat']
    rw [char_toLower_eq (Char.toLower c), if_neg (by rw [htn]; omega)]
  · have h1 : Char.toLower c = c := by
      rw [char_toLower_eq, if_neg h]
    rw [h1]
    exact h1

theorem jsToLower_idem (s : String) : jsToLower (jsToLower s) = jsToLower s := by
  simp only [jsToLower, List.map_map]
  have hcomp : Char.toLower ∘ Char.toLower = Char.toLower := funext char_toLower_idem
  rw [hcomp]

theorem foldl_headerBlock (hs : List (String × String)) (r : String) :
    List.foldl (fun r p => r ++ (p.1 ++ ": " ++ p.2 ++ "\r\n")) r hs = r ++ headerBlock hs := by
  induction hs generalizing r with
  | nil => simp [headerBlock, String.append_empty]
  | cons p t ih =>
    rw [List.foldl_cons, ih, headerBlock]
    simp [String.append_assoc]

theorem strStartsWith_append (a b : String) : strStartsWith (a ++ b) a = true := by
  rw [strStartsWith, String.data_append, List.isPrefixOf_iff_prefix]
  exact List.prefix_append a.data b.data

theorem containsSub_of_isPrefixOf (pat l : List Char) (h : List.isPrefixOf pat l = true) :
    containsSub pat l = true := by
  cases l with
  | nil =>
    rw [List.isPrefixOf_iff_prefix, List.prefix_nil] at h
    simp [containsSub, h]
  | cons c t => simp [containsSub, h]

theorem containsSub_append_left (pat a b : List Char) (h : containsSub pat a = true) :
    containsSub pat (a ++ b) = true := by
  induction a with
  | nil =>
    rw [containsSub, List.isEmpty_iff] at h
    subst h
    apply containsSub_of_isPrefixOf
    rw [List.isPrefixOf_iff_prefix]
    exact List.nil_prefix
  | cons c t ih =>
    rw [containsSub, Bool.or_eq_true] at h
    rw [List.cons_append, containsSub, Bool.or_eq_true]
    rcases h with h | h
    · left
      rw [List.isPrefixOf_iff_prefix] at h ⊢
      exact h.trans (List.prefix_append _ _)
    · right
      exact ih h

theorem strContains_append_left (a b pat : String) (h : strContains a pat = true) :
    strContains (a ++ b) pat = true := by
  rw [strContains, String.data_append]
  exact containsSub_append_left pat.data a.data b.data h

theorem createResponse_eq (sc : Nat) (hs : List (String × String)) (body : String) :
    createResponse sc hs body
      = "HTTP/1.1 " ++ toString sc ++ " " ++ statusMessage sc ++ "\r\n"
        ++ headerBlock (List.foldl (fun m p => jsInsert m p.1 p.2)
             [("Content-Type", "text/plain"),
              ("Content-Length", toString (String.utf8ByteSize body)),
              ("Connection", "close")] hs)
        ++ "\r\n" ++ body := by
  unfold createResponse
  simp only []
  rw [foldl_headerBlock]

theorem foldl_parseHeaderLine_keys_lower (lines : List String) (m : List (String × String))
    (hm : ∀ kv ∈ m, jsToLower kv.1 = kv.1) :
    ∀ kv ∈ List.foldl parseHeaderLine m lines, jsToLower kv.1 = kv.1 := by
  induction lines generalizing m with
  | nil => exact hm
  | cons line rest ih =>
    rw [List.foldl_cons]
    apply ih
    intro kv hkv
    rw [parseHeaderLine] at hkv
    cases hkv' : parseHeaderKV line with
    | none =>
      rw [hkv'] at hkv
      exact hm kv hkv
    | some kv0 =>
      rw [hkv'] at hkv
      rcases mem_jsInsert _ _ _ _ hkv with h | h
      · have hk0 : jsToLower kv0.1 = kv0.1 := by
          rw [parseHeaderKV] at hkv'
          cases hidx : line.data.findIdx? (fun c => c == ':') with
          | none => rw [hidx] at hkv'; exact absurd hkv' (by simp)
          | some i =>
            rw [hidx] at hkv'
            have : kv0 = (jsToLower ⟨line.data.take i⟩, jsTrim ⟨line.data.drop (i + 1)⟩) := by
              injection hkv' with hh
              exact hh.symm
            rw [this]
            exact jsToLower_idem _
        rw [h]
        have : (kv0.1, kv0.2) = kv0 := rfl
        rw [show ((kv0.1, kv0.2) : String × String).1 = kv0.1 from rfl]
        exact hk0
      · exact hm kv h

theorem splitListAux_no_sep (c0 : Char) (l : List Char) (acc : List Char) (h : c0 ∉ l) :
    splitListAux [c0] 0 acc l = [acc.reverse ++ l] := by
  induction l generalizing acc with
  | nil => simp [splitListAux]
  | cons c t ih =>
    rw [List.mem_cons, not_or] at h
    obtain ⟨hc, ht⟩ := h
    rw [splitListAux]
    rw [if_neg (by simp [List.isPrefixOf]; intro hh; exact hc hh)]
    rw [ih _ ht]
    simp

theorem splitListAux_sep (c0 : Char) (k : List Char) (acc rest : List Char) (h : c0 ∉ k) :
    splitListAux [c0] 0 acc (k ++ c0 :: rest)
      = (acc.reverse ++ k) :: splitListAux [c0] 0 [] rest := by
  induction k generalizing acc with
  | nil =>
    rw [List.nil_append, splitListAux]
    rw [if_pos (by simp [List.isPrefixOf])]
    simp
  | cons c t ih =>
    rw [List.mem_cons, not_or] at h
    obtain ⟨hc, ht⟩ := h
    rw [List.cons_append, splitListAux]
    rw [if_neg (by simp [List.isPrefixOf]; intro hh; exact hc hh)]
    rw [ih _ ht]
    simp

theorem splitListAux_head (c0 : Char) (l : List Char) (acc : List Char) :
    (splitListAux [c0] 0 acc l).head? = some (acc.reverse ++ l.takeWhile (fun c => c != c0)) := by
  induction l generalizing acc with
  | nil => simp [splitListAux]
  | cons c t ih =>
    by_cases hc : c = c0
    · subst hc
      rw [splitListAux, if_pos (by simp [List.isPrefixOf])]
      simp [List.takeWhile_cons]
    · rw [splitListAux, if_neg (by simp [List.isPrefixOf]; intro hh; exact hc hh.symm)]
      rw [ih]
      have hcb : (c != c0) = true := by simp [hc]
      simp [List.takeWhile_cons, hcb]

theorem strStartsWith_append_of (a b pre : String) (h : strStartsWith a pre = true) :
    strStartsWith (a ++ b) pre = true := by
  rw [strStartsWith, List.isPrefixOf_iff_prefix] at h ⊢
  rw [String.data_append]
  exact h.trans (List.prefix_append _ _)

/-- C1 (amended): `createResponse` maps the codes of its fixed table
(200, 201, 400, 404, 500) to their reason phrases, and every other code --
INCLUDING 405, which is absent from the table -- to the literal reason
phrase `Unknown`, never failing; consequently every 405 response begins
with the status line `HTTP/1.1 405 Unknown`. -/
theorem claim_c1 :
    statusMessage 200 = "OK" ∧ statusMessage 201 = "Created" ∧
    statusMessage 400 = "Bad Request" ∧ statusMessage 404 = "Not Found" ∧
    statusMessage 500 = "Internal Server Error" ∧
    (∀ sc : Nat, sc ≠ 200 → sc ≠ 201 → sc ≠ 400 → sc ≠ 404 → sc ≠ 500 →
      statusMessage sc = "Unknown") ∧
    (∀ hs body, strStartsWith (createResponse 405 hs body) "HTTP/1.1 405 Unknown\r\n" = true) := by
  refine ⟨rfl, rfl, rfl, rfl, rfl, ?_, ?_⟩
  · intro sc h1 h2 h3 h4 h5
    simp [statusMessage, h1, h2, h3, h4, h5]
  · intro hs body
    rw [createResponse_eq]
    apply strStartsWith_append_of
    apply strStartsWith_append_of
    apply strStartsWith_append_of
    decide

/-- C1 witness: the fallback branch and the 405 status line at concrete
inputs, through `claim_c1`. -/
theorem claim_c1_witness :
    statusMessage 418 = "Unknown" ∧
    strStartsWith (createResponse 405 [("Content-Type", "text/plain")] "x")
      "HTTP/1.1 405 Unknown\r\n" = true := by
  exact ⟨claim_c1.2.2.2.2.2.1 418 (by decide) (by decide) (by decide) (by decide) (by decide),
         claim_c1.2.2.2.2.2.2 [("Content-Type", "text/plain")] "x"⟩

/-- C1 counterexample: the claim says the table maps 405 to the phrase
`Method Not Allowed`; in the code the table has no 405 entry, so a 405
response starts `HTTP/1.1 405 Unknown`, not `HTTP/1.1 405 Method Not
Allowed`. -/
theorem claim_c1_counterexample :
    statusMessage 405 = "Unknown" ∧
    strStartsWith (createResponse 405 [("Content-Type", "text/plain")] "x")
      "HTTP/1.1 405 Method Not Allowed" = false ∧
    strStartsWith (createResponse 405 [("Content-Type", "text/plain")] "x")
      "HTTP/1.1 405 Unknown\r\n" = true := by
  refine ⟨rfl, by decide, by decide⟩

/-- C4: `createResponse` returns exactly the status line (with the literal
`HTTP/1.1` version token), one `name: value` CRLF line per header, a blank
line, then the body; the defaults Content-Type / Content-Length (UTF-8 byte
length of the body, not character count) / Connection are emitted first in
that order, a caller header with the same case-sensitive name overriding
the corresponding default, followed by the non-overlapping caller headers
in supplied order; and `createResponse 200 {} "hello"` contains the line
`Content-Length: 5` and ends with `hello` right after the blank line. -/
theorem claim_c4 :
    (∀ (sc : Nat) (hs : List (String × String)) (body : String),
      (hs.map Prod.fst).Nodup →
      createResponse sc hs body = specResponse sc hs body) ∧
    strContains (createResponse 200 [] "hello") "\r\nContent-Length: 5\r\n" = true ∧
    strEndsWith (createResponse 200 [] "hello") "\r\n\r\nhello" = true := by
  refine ⟨?_, by decide, by decide⟩
  intro sc hs body hnd
  rw [createResponse_eq, specResponse]
  have hm : List.foldl (fun m p => jsInsert m p.1 p.2)
      [("Content-Type", "text/plain"),
       ("Content-Length", toString (String.utf8ByteSize body)),
       ("Connection", "close")] hs
      = specMergedHeaders hs body := by
    rw [foldl_jsInsert_nodup _ _ hnd, specMergedHeaders]
    congr 1
    apply List.filter_congr
    intro p _
    by_cases h1 : p.1 = "Content-Type"
    · have e1 : (("Content-Type" : String) == p.1) = true := by simp [h1]
      simp [jsGet, List.find?_cons, e1, h1]
    · have n1 : (("Content-Type" : String) == p.1) = false := beq_false_of_ne (fun h => h1 h.symm)
      have m1 : (p.1 == "Content-Type") = false := beq_false_of_ne h1
      by_cases h2 : p.1 = "Content-Length"
      · have e2 : (("Content-Length" : String) == p.1) = true := by simp [h2]
        simp [jsGet, List.find?_cons, n1, m1, e2, h2]
      · have n2 : (("Content-Length" : String) == p.1) = false := beq_false_of_ne (fun h => h2 h.symm)
        have m2 : (p.1 == "Content-Length") = false := beq_false_of_ne h2
        by_cases h3 : p.1 = "Connection"
        · have e3 : (("Connection" : String) == p.1) = true := by simp [h3]
          simp [jsGet, List.find?_cons, n1, m1, n2, m2, e3, h3]
        · have n3 : (("Connection" : String) == p.1) = false := beq_false_of_ne (fun h => h3 h.symm)
          have m3 : (p.1 == "Connection") = false := beq_false_of_ne h3
          simp [jsGet, List.find?_cons, n1, m1, n2, m2, n3, m3]
  rw [hm]

/-- C4 witness: the format equation at a concrete status code, caller
header set (with an overriding `Content-Type`) and body, through
`claim_c4`. -/
theorem claim_c4_witness :
    ((([("Content-Type", "application/json"), ("X-Custom", "1")] : List (String × String)).map
      Prod.fst).Nodup) ∧
    createResponse 201 [("Content-Type", "application/json"), ("X-Custom", "1")] "hi"
      = specResponse 201 [("Content-Type", "application/json"), ("X-Custom", "1")] "hi" := by
  exact ⟨by decide,
    claim_c4.1 201 [("Content-Type", "application/json"), ("X-Custom", "1")] "hi" (by decide)⟩

/-- C5: header lines before the first empty line are split at the FIRST
colon, the key lower-cased and the value trimmed (`parseHeaderKV`); a line
without a colon is skipped; on duplicate (lower-cased) keys the LAST
occurrence wins; and every key of the resulting headers map is
lower-case. -/
theorem claim_c5 (data : String) :
    (∀ kv ∈ (parseRequest data).headers, jsToLower kv.1 = kv.1) ∧
    (∀ k, jsGet (parseRequest data).headers k
      = (((((jsSplit "\r\n" data).drop 1).takeWhile (fun l => l != "")).filterMap
            parseHeaderKV).filter (fun kv => kv.1 == k)).getLast?.map (fun kv => kv.2)) := by
  have hhdrs : (parseRequest data).headers
      = List.foldl parseHeaderLine []
          (((jsSplit "\r\n" data).drop 1).takeWhile (fun l => l != "")) := by
    simp only [parseRequest]
    rw [scanHeaders_eq]
  constructor
  · rw [hhdrs]
    exact foldl_parseHeaderLine_keys_lower _ _ (by intro kv h; exact absurd h (List.not_mem_nil kv))
  · intro k
    rw [hhdrs, foldl_parseHeaderLine_filterMap, jsGet_foldl_jsInsert]
    cases h : (((((jsSplit "\r\n" data).drop 1).takeWhile (fun l => l != "")).filterMap
        parseHeaderKV).filter (fun kv => kv.1 == k)).getLast? with
    | none => simp [h, jsGet]
    | some kv => simp [h]

/-- C5 witness: duplicate `Host` lines with mixed casing and a colon-free
line, through `claim_c5`: the surviving key is the lower-cased `host`, its
value that of the LAST occurrence. -/
theorem claim_c5_witness :
    ("host", "y") ∈ (parseRequest "GET / HTTP/1.1\r\nHost: x\r\nNoColon\r\nHOST:  y \r\n\r\n").headers ∧
    jsToLower "host" = "host" ∧
    jsGet (parseRequest "GET / HTTP/1.1\r\nHost: x\r\nNoColon\r\nHOST:  y \r\n\r\n").headers "host"
      = some "y" := by
  refine ⟨by decide, ?_, ?_⟩
  · exact (claim_c5 "GET / HTTP/1.1\r\nHost: x\r\nNoColon\r\nHOST:  y \r\n\r\n").1
      ("host", "y") (by decide)
  · rw [(claim_c5 "GET / HTTP/1.1\r\nHost: x\r\nNoColon\r\nHOST:  y \r\n\r\n").2 "host"]
    decide

/-- C6: splitting the raw message on CRLF, the parsed body is the lines
after the FIRST empty line (after line 0) rejoined with CRLF -- empty when
no empty line exists -- and only the lines strictly before that first empty
line are processed as header lines. -/
theorem claim_c6 (data : String) :
    ((parseRequest data).body =
      match ((jsSplit "\r\n" data).drop 1).dropWhile (fun l => l != "") with
      | [] => ""
      | _ :: rest => jsJoin "\r\n" rest) ∧
    (parseRequest data).headers =
      List.foldl parseHeaderLine []
        (((jsSplit "\r\n" data).drop 1).takeWhile (fun l => l != "")) := by
  constructor
  · simp only [parseRequest]
    rw [scanHeaders_eq]
    cases h : ((jsSplit "\r\n" data).drop 1).dropWhile (fun l => l != "") with
    | nil => simp [h]
    | cons x rest => simp [h]
  · simp only [parseRequest]
    rw [scanHeaders_eq]

theorem jsOrStr_some_empty_default (s : String) : jsOrStr (some s) "" = s := by
  by_cases h : s = "" <;> simp [jsOrStr, h]

theorem jsSplit_eq_sep (k rest : List Char) (h : ('=' : Char) ∉ k) :
    jsSplit "=" ⟨k ++ '=' :: rest⟩
      = ⟨k⟩ :: (splitListAux ['='] 0 [] rest).map (fun l => ⟨l⟩) := by
  rw [jsSplit]
  have hd : ("=" : String).data = ['='] := rfl
  have hd2 : (⟨k ++ '=' :: rest⟩ : String).data = k ++ '=' :: rest := rfl
  rw [hd, hd2, splitListAux_sep '=' k [] rest h]
  simp

theorem jsSplit_eq_no_sep (k : List Char) (h : ('=' : Char) ∉ k) :
    jsSplit "=" ⟨k⟩ = [⟨k⟩] := by
  rw [jsSplit]
  have hd : ("=" : String).data = ['='] := rfl
  have hd2 : (⟨k⟩ : String).data = k := rfl
  rw [hd, hd2, splitListAux_no_sep '=' k [] h]
  simp

/-- C2 (amended): in the query-string / form-body loop each pair is split
on `=` with the key the segment before the first `=` and the value the
segment BETWEEN the first and the second `=` (the second element of the JS
`split("=")` array, not everything after the first `=`; empty when there is
no `=`); keys and values are percent-decoded and pairs whose key is empty
are skipped. -/
theorem claim_c2 :
    (∀ (m : List (String × String)) (k rest : List Char), '=' ∉ k → k ≠ [] →
      addUrlPair m ⟨k ++ '=' :: rest⟩
        = do
            let dk ← decodeURIComponent ⟨k⟩
            let dv ← decodeURIComponent ⟨rest.takeWhile (fun c => c != '=')⟩
            pure (jsInsert m dk dv)) ∧
    (∀ (m : List (String × String)) (rest : List Char),
      addUrlPair m ⟨'=' :: rest⟩ = some m) ∧
    (∀ (m : List (String × String)) (k : List Char), '=' ∉ k → k ≠ [] →
      addUrlPair m ⟨k⟩
        = do
            let dk ← decodeURIComponent ⟨k⟩
            let dv ← decodeURIComponent ""
            pure (jsInsert m dk dv)) ∧
    (∀ m : List (String × String), addUrlPair m "" = some m) := by
  refine ⟨?_, ?_, ?_, ?_⟩
  · intro m k rest hk hne
    rw [addUrlPair]
    simp only [jsSplit_eq_sep k rest hk]
    cases hsp : splitListAux ['='] 0 [] rest with
    | nil =>
      have := splitListAux_head '=' rest []
      rw [hsp] at this
      exact absurd this (by simp)
    | cons p ps =>
      have hhead := splitListAux_head '=' rest []
      rw [hsp] at hhead
      simp only [List.head?_cons, Option.some.injEq, List.reverse_nil, List.nil_append] at hhead
      have hkey : (⟨k⟩ : String) ≠ "" := by
        intro hh
        exact hne (congrArg String.data hh)
      simp only [List.map_cons, List.headD_cons, if_neg hkey]
      have hidx : ((⟨k⟩ : String) :: (⟨p⟩ : String) :: ps.map (fun l => (⟨l⟩ : String)))[1]?
          = some ⟨p⟩ := by simp
      rw [hidx, hhead, jsOrStr_some_empty_default]
  · intro m rest
    rw [addUrlPair]
    have hsp : jsSplit "=" ⟨'=' :: rest⟩
        = (⟨([] : List Char)⟩ : String) :: (splitListAux ['='] 0 [] rest).map (fun l => ⟨l⟩) := by
      have h0 := jsSplit_eq_sep [] rest (by simp)
      simpa using h0
    rw [hsp]
    simp
  · intro m k hk hne
    rw [addUrlPair]
    rw [jsSplit_eq_no_sep k hk]
    have hkey : (⟨k⟩ : String) ≠ "" := by
      intro hh
      exact hne (congrArg String.data hh)
    simp only [List.headD_cons, if_neg hkey]
    rfl
  · intro m
    rfl

/-- C2 witness: the first-conjunct equation of `claim_c2` at the concrete
pair `a=b=c` (the stored value is the decoded middle segment `b`). -/
theorem claim_c2_witness :
    ('=' ∉ (['a'] : List Char)) ∧ (['a'] : List Char) ≠ [] ∧
    addUrlPair [] ⟨['a'] ++ '=' :: ['b', '=', 'c']⟩
      = (do
          let dk ← decodeURIComponent ⟨['a']⟩
          let dv ← decodeURIComponent ⟨(['b', '=', 'c'] : List Char).takeWhile (fun c => c != '=')⟩
          pure (jsInsert [] dk dv)) ∧
    addUrlPair [] "a=b=c" = some [("a", "b")] := by
  exact ⟨by decide, by decide,
    claim_c2.1 [] ['a'] ['b', '=', 'c'] (by decide) (by decide), by decide⟩

/-- C2 counterexample: the claim says the value of a pair is everything
after the FIRST `=` (so `a=b=c` maps `a` to `b=c`); the code destructures
the full `split("=")` array, so `a=b=c` maps `a` to `b` -- the two parses
differ on this input. -/
theorem claim_c2_counterexample :
    parseUrlPairs "a=b=c" = some [("a", "b")] ∧
    claimedFirstEqPairs "a=b=c" = some [("a", "b=c")] ∧
    (some [("a", "b")] : Option (List (String × String))) ≠ some [("a", "b=c")] := by
  exact ⟨by decide, by decide, by decide⟩

theorem createResponse_starts_http (sc : Nat) (hs : List (String × String)) (body : String) :
    strStartsWith (createResponse sc hs body) "HTTP/1.1 " = true := by
  rw [createResponse_eq]
  apply strStartsWith_append_of
  apply strStartsWith_append_of
  apply strStartsWith_append_of
  apply strStartsWith_append_of
  apply strStartsWith_append_of
  apply strStartsWith_append_of
  apply strStartsWith_append_of
  decide

theorem createResponse_201_starts (hs : List (String × String)) (body : String) :
    strStartsWith (createResponse 201 hs body) "HTTP/1.1 201 Created\r\n" = true := by
  rw [createResponse_eq]
  apply strStartsWith_append_of
  apply strStartsWith_append_of
  apply strStartsWith_append_of
  decide

theorem handleGET_shape (env : Env) (req : ParsedRequest) (r : String)
    (h : handleGET env req = some r) : ∃ sc hs b, r = createResponse sc hs b := by
  rw [handleGET] at h
  cases hp : req.path with
  | none => rw [hp] at h; exact absurd h (by simp)
  | some p =>
    rw [hp] at h
    dsimp only [] at h
    cases hq : (if jsOrStr (jsSplit "?" p)[1]? "" = "" then some []
        else parseUrlPairs (jsOrStr (jsSplit "?" p)[1]? "")) with
    | none => rw [hq] at h; exact absurd h (by simp)
    | some qp =>
      rw [hq] at h
      split_ifs at h <;> exact ⟨_, _, _, (Option.some.inj h).symm⟩

theorem handlePOST_shape (env : Env) (req : ParsedRequest) (r : String)
    (h : handlePOST env req = some r) : ∃ sc hs b, r = createResponse sc hs b := by
  rw [handlePOST] at h
  cases hpb : postParseBody env (postContentType req) req.body with
  | none => rw [hpb] at h; exact ⟨_, _, _, (Option.some.inj h).symm⟩
  | some pb =>
    rw [hpb] at h
    split_ifs at h
    · exact ⟨_, _, _, (Option.some.inj h).symm⟩
    · rw [Option.map_eq_some'] at h
      obtain ⟨n, _, hr⟩ := h
      exact ⟨_, _, _, hr.symm⟩
    · exact ⟨_, _, _, (Option.some.inj h).symm⟩
    · exact ⟨_, _, _, (Option.some.inj h).symm⟩

theorem route_shape (env : Env) (req : ParsedRequest) (r : String)
    (h : route env req = some r) : ∃ sc hs b, r = createResponse sc hs b := by
  rw [route] at h
  split_ifs at h
  · exact handleGET_shape env req r h
  · exact handlePOST_shape env req r h
  · exact ⟨_, _, _, (Option.some.inj h).symm⟩

theorem connResponse_starts_http (env : Env) (data : String) :
    strStartsWith (connResponse env data) "HTTP/1.1 " = true := by
  rw [connResponse]
  cases hr : route env (parseRequest data) with
  | none => exact createResponse_starts_http 400 _ _
  | some r =>
    obtain ⟨sc, hs, b, hb⟩ := route_shape env (parseRequest data) r hr
    rw [hb]
    exact createResponse_starts_http sc hs b

/-- C7: a POST whose declared content type contains `application/json` and
whose body fails JSON parsing is answered 400 with exactly
`Bad Request - Invalid request body format`, short-circuiting path dispatch
(the result does not depend on the path: no 404/201 route logic runs). -/
theorem claim_c7 (env : Env) (req : ParsedRequest)
    (hct : strContains (postContentType req) "application/json" = true)
    (hparse : env.jsonParse req.body = none) :
    handlePOST env req
      = some (createResponse 400 [("Content-Type", "text/plain")]
          "Bad Request - Invalid request body format") := by
  rw [handlePOST]
  have hpb : postParseBody env (postContentType req) req.body = none := by
    rw [postParseBody, if_pos hct, hparse]
  rw [hpb]

/-- C7 witness: scenario C of the specification
(`POST /api/users` with `Content-Type: application/json` and body
`not-json`, under a JSON parser that rejects it), through `claim_c7`. -/
theorem claim_c7_witness :
    strContains
      (postContentType (parseRequest
        "POST /api/users HTTP/1.1\r\nContent-Type: application/json\r\n\r\nnot-json"))
      "application/json" = true ∧
    defaultEnv.jsonParse (parseRequest
      "POST /api/users HTTP/1.1\r\nContent-Type: application/json\r\n\r\nnot-json").body = none ∧
    handlePOST defaultEnv (parseRequest
      "POST /api/users HTTP/1.1\r\nContent-Type: application/json\r\n\r\nnot-json")
      = some (createResponse 400 [("Content-Type", "text/plain")]
          "Bad Request - Invalid request body format") := by
  exact ⟨by decide, rfl,
    claim_c7 defaultEnv
      (parseRequest "POST /api/users HTTP/1.1\r\nContent-Type: application/json\r\n\r\nnot-json")
      (by decide) rfl⟩

/-- C8: a parsed request whose method is any string other than `GET` and
`POST` (including the empty string) is answered through the dispatch
default branch: status 405 with body exactly
`405 Method Not Allowed - Method (the method) not supported`. -/
theorem claim_c8 (env : Env) (req : ParsedRequest) (m : String)
    (hm : req.method = some m) (hg : m ≠ "GET") (hp : m ≠ "POST") :
    route env req
      = some (createResponse 405 [("Content-Type", "text/plain")]
          ("405 Method Not Allowed - Method \x27" ++ m ++ "\x27 not supported")) := by
  rw [route, if_neg (by rw [hm]; simp [hg]), if_neg (by rw [hm]; simp [hp]), hm]
  rfl

/-- C8 witness: scenario E of the specification (`DELETE / HTTP/1.1`),
through `claim_c8`: the interpolated body for method `DELETE`. -/
theorem claim_c8_witness :
    (parseRequest "DELETE / HTTP/1.1\r\n\r\n").method = some "DELETE" ∧
    ("DELETE" : String) ≠ "GET" ∧ ("DELETE" : String) ≠ "POST" ∧
    route defaultEnv (parseRequest "DELETE / HTTP/1.1\r\n\r\n")
      = some (createResponse 405 [("Content-Type", "text/plain")]
          "405 Method Not Allowed - Method \x27DELETE\x27 not supported") := by
  refine ⟨by decide, by decide, by decide, ?_⟩
  exact claim_c8 defaultEnv (parseRequest "DELETE / HTTP/1.1\r\n\r\n") "DELETE"
    (by decide) (by decide) (by decide)

theorem postEchoBody_contains_200 (m p ct len str : String) :
    strContains (postEchoBody m p ct len str) "Status: 200 OK" = true := by
  rw [postEchoBody]
  repeat apply strContains_append_left
  decide

/-- C3 (amended): a POST whose body parses successfully and whose path is
`/api/users`, `/api/data` or `/api/echo` is answered with status code 201
on the wire -- in particular `/api/echo`, whose body text contains
`Status: 200 OK` but which is sent with the `HTTP/1.1 201 Created` status
line -- EXCEPT when the path is `/api/data` and the parsed JSON body is
`null`: there the route body evaluates `Object.keys(null)`, which throws,
so the connection handler answers 400 instead. -/
theorem claim_c3 (env : Env) (req : ParsedRequest) (pb : Js)
    (hparse : postParseBody env (postContentType req) req.body = some pb)
    (hroute : req.path = some "/api/users" ∨ req.path = some "/api/data" ∨
      req.path = some "/api/echo")
    (hnotnull : ¬(req.path = some "/api/data" ∧ pb = Js.jnull)) :
    ∃ body, handlePOST env req = some (createResponse 201 [("Content-Type", "text/plain")] body)
      ∧ strStartsWith (createResponse 201 [("Content-Type", "text/plain")] body)
          "HTTP/1.1 201 Created\r\n" = true
      ∧ (req.path = some "/api/echo" → strContains body "Status: 200 OK" = true) := by
  rcases hroute with hpath | hpath | hpath
  · have h1 : handlePOST env req = some (createResponse 201 [("Content-Type", "text/plain")]
        (postUsersBody (jsToStr req.path) (jsToStr req.version) (postContentType req)
          (toString req.body.length) (jsOrStr (jsGet req.headers "host") "Not specified")
          (env.jsonStringify2 pb))) := by
      rw [handlePOST, hparse]
      dsimp only []
      rw [if_pos hpath]
    exact ⟨_, h1, createResponse_201_starts _ _,
      fun he => absurd (Option.some.inj (hpath.symm.trans he)) (by decide)⟩
  · have hnn : pb ≠ Js.jnull := fun hh => hnotnull ⟨hpath, hh⟩
    obtain ⟨n, hn⟩ : ∃ n, jsKeysLen pb = some n := by
      cases pb with
      | jnull => exact absurd rfl hnn
      | jbool b => exact ⟨0, rfl⟩
      | jnum i => exact ⟨0, rfl⟩
      | jstr s => exact ⟨s.length, rfl⟩
      | jarr l => exact ⟨l.length, rfl⟩
      | jobj l => exact ⟨l.length, rfl⟩
    have h1 : handlePOST env req = some (createResponse 201 [("Content-Type", "text/plain")]
        (postDataBody env.nowISO (env.jsonStringify2 pb) (postContentType req)
          (toString n) env.dateNow)) := by
      rw [handlePOST, hparse]
      dsimp only []
      rw [if_neg (by rw [hpath]; decide), if_pos hpath, hn]
      rfl
    exact ⟨_, h1, createResponse_201_starts _ _,
      fun he => absurd (Option.some.inj (hpath.symm.trans he)) (by decide)⟩
  · have h1 : handlePOST env req = some (createResponse 201 [("Content-Type", "text/plain")]
        (postEchoBody (jsToStr req.method) (jsToStr req.path) (postContentType req)
          (toString req.body.length) (env.jsonStringify2 pb))) := by
      rw [handlePOST, hparse]
      dsimp only []
      rw [if_neg (by rw [hpath]; decide), if_neg (by rw [hpath]; decide), if_pos hpath]
    exact ⟨_, h1, createResponse_201_starts _ _,
      fun _ => postEchoBody_contains_200 _ _ _ _ _⟩

/-- C3 witness: `POST /api/echo` with a plain-text body, through `claim_c3`:
the wire status line is `HTTP/1.1 201 Created` while the body text contains
`Status: 200 OK`. -/
theorem claim_c3_witness :
    postParseBody defaultEnv
      (postContentType (parseRequest "POST /api/echo HTTP/1.1\r\n\r\nhi"))
      (parseRequest "POST /api/echo HTTP/1.1\r\n\r\nhi").body
      = some (Js.jobj [("content", Js.jstr "hi")]) ∧
    ((parseRequest "POST /api/echo HTTP/1.1\r\n\r\nhi").path = some "/api/users" ∨
     (parseRequest "POST /api/echo HTTP/1.1\r\n\r\nhi").path = some "/api/data" ∨
     (parseRequest "POST /api/echo HTTP/1.1\r\n\r\nhi").path = some "/api/echo") ∧
    ¬((parseRequest "POST /api/echo HTTP/1.1\r\n\r\nhi").path = some "/api/data" ∧
      Js.jobj [("content", Js.jstr "hi")] = Js.jnull) ∧
    ∃ body, handlePOST defaultEnv (parseRequest "POST /api/echo HTTP/1.1\r\n\r\nhi")
        = some (createResponse 201 [("Content-Type", "text/plain")] body)
      ∧ strStartsWith (createResponse 201 [("Content-Type", "text/plain")] body)
          "HTTP/1.1 201 Created\r\n" = true
      ∧ ((parseRequest "POST /api/echo HTTP/1.1\r\n\r\nhi").path = some "/api/echo" →
          strContains body "Status: 200 OK" = true) := by
  refine ⟨rfl, Or.inr (Or.inr (by decide)), fun hc => absurd hc.1 (by decide), ?_⟩
  exact claim_c3 defaultEnv (parseRequest "POST /api/echo HTTP/1.1\r\n\r\nhi")
    (Js.jobj [("content", Js.jstr "hi")]) rfl (Or.inr (Or.inr (by decide)))
    (fun hc => absurd hc.1 (by decide))

/-- C3 counterexample: with the real behavior of `JSON.parse` on the body
`null`, a `POST /api/data` request parses successfully and hits a known
route, yet the handler throws (`Object.keys(null)`) and the wire response
is the 400 fallback, not a 201. -/
theorem claim_c3_counterexample :
    postParseBody nullEnv
      (postContentType (parseRequest
        "POST /api/data HTTP/1.1\r\nContent-Type: application/json\r\n\r\nnull"))
      (parseRequest
        "POST /api/data HTTP/1.1\r\nContent-Type: application/json\r\n\r\nnull").body
      = some Js.jnull ∧
    (parseRequest
      "POST /api/data HTTP/1.1\r\nContent-Type: application/json\r\n\r\nnull").path
      = some "/api/data" ∧
    handlePOST nullEnv (parseRequest
      "POST /api/data HTTP/1.1\r\nContent-Type: application/json\r\n\r\nnull") = none ∧
    strStartsWith
      (connResponse nullEnv
        "POST /api/data HTTP/1.1\r\nContent-Type: application/json\r\n\r\nnull")
      "HTTP/1.1 400 Bad Request\r\n" = true := by
  exact ⟨rfl, by decide, rfl, by decide⟩

theorem strConcat_take_cons (buf c : String) (rest : List String) (j : Nat) :
    buf ++ strConcat ((c :: rest).take (j + 1)) = (buf ++ c) ++ strConcat (rest.take j) := by
  rw [List.take_succ_cons, strConcat, ← String.append_assoc]

theorem strConcat_take_one (buf c : String) (rest : List String) :
    buf ++ strConcat ((c :: rest).take 1) = buf ++ c := by
  rw [strConcat_take_cons, List.take_zero, strConcat, String.append_empty]

theorem feedChunks_found (env : Env) (chunks : List String) : ∀ (buf : String) (i : Nat),
    i < chunks.length →
    strContains (buf ++ strConcat (chunks.take (i + 1))) "\r\n\r\n" = true →
    (∀ j, j < i → strContains (buf ++ strConcat (chunks.take (j + 1))) "\r\n\r\n" = false) →
    feedChunks env buf chunks = some (connResponse env (buf ++ strConcat (chunks.take (i + 1)))) := by
  induction chunks with
  | nil =>
    intro buf i hi
    exact absurd hi (by simp)
  | cons c rest ih =>
    intro buf i hi hc hall
    cases i with
    | zero =>
      rw [strConcat_take_one] at hc ⊢
      rw [feedChunks]
      rw [if_pos hc]
    | succ i' =>
      have h0 : strContains (buf ++ c) "\r\n\r\n" = false := by
        have := hall 0 (Nat.succ_pos i')
        rwa [strConcat_take_one] at this
      rw [feedChunks]
      rw [if_neg (by simp [h0])]
      rw [strConcat_take_cons]
      exact ih (buf ++ c) i' (by simpa using hi)
        (by rwa [strConcat_take_cons] at hc)
        (fun j hj => by
          have := hall (j + 1) (by omega)
          rwa [strConcat_take_cons] at this)

theorem feedChunks_none (env : Env) (chunks : List String) : ∀ (buf : String),
    (∀ i, i < chunks.length →
      strContains (buf ++ strConcat (chunks.take (i + 1))) "\r\n\r\n" = false) →
    feedChunks env buf chunks = none := by
  induction chunks with
  | nil => intro buf _; rfl
  | cons c rest ih =>
    intro buf hall
    have h0 : strContains (buf ++ c) "\r\n\r\n" = false := by
      have := hall 0 (Nat.succ_pos _)
      rwa [strConcat_take_one] at this
    rw [feedChunks]
    rw [if_neg (by simp [h0])]
    exact ih (buf ++ c) (fun i hi => by
      have := hall (i + 1) (by simpa using hi)
      rwa [strConcat_take_cons] at this)

/-- C9: the connection handler attempts a parse exactly when the
accumulated buffer first contains the four bytes CRLFCRLF -- never before,
and without consulting Content-Length or counting body bytes: for any chunk
sequence, the response is produced at the first prefix whose concatenation
contains CRLFCRLF and is computed from exactly the bytes received so far;
if no prefix ever contains CRLFCRLF, no parse is attempted. -/
theorem claim_c9 :
    (∀ (env : Env) (chunks : List String) (i : Nat), i < chunks.length →
      strContains (strConcat (chunks.take (i + 1))) "\r\n\r\n" = true →
      (∀ j, j < i → strContains (strConcat (chunks.take (j + 1))) "\r\n\r\n" = false) →
      feedChunks env "" chunks = some (connResponse env (strConcat (chunks.take (i + 1))))) ∧
    (∀ (env : Env) (chunks : List String),
      (∀ i, i < chunks.length →
        strContains (strConcat (chunks.take (i + 1))) "\r\n\r\n" = false) →
      feedChunks env "" chunks = none) := by
  constructor
  · intro env chunks i hi hc hall
    have := feedChunks_found env chunks "" i hi
      (by rwa [String.empty_append])
      (fun j hj => by rw [String.empty_append]; exact hall j hj)
    rwa [String.empty_append] at this
  · intro env chunks hall
    exact feedChunks_none env chunks ""
      (fun i hi => by rw [String.empty_append]; exact hall i hi)

/-- C9 witness: a request split into four chunks where the CRLFCRLF
delimiter only appears once the third chunk arrives, through `claim_c9`:
the parse happens exactly there, on exactly the bytes received so far
(the fourth chunk -- body bytes -- is not waited for). -/
theorem claim_c9_witness :
    (2 < (["GET / HT", "TP/1.1\r\n", "\r\n", "ignored-body"] : List String).length) ∧
    strContains (strConcat (["GET / HT", "TP/1.1\r\n", "\r\n", "ignored-body"].take 3))
      "\r\n\r\n" = true ∧
    feedChunks defaultEnv "" ["GET / HT", "TP/1.1\r\n", "\r\n", "ignored-body"]
      = some (connResponse defaultEnv
          (strConcat (["GET / HT", "TP/1.1\r\n", "\r\n", "ignored-body"].take 3))) := by
  refine ⟨by decide, by decide, ?_⟩
  exact claim_c9.1 defaultEnv ["GET / HT", "TP/1.1\r\n", "\r\n", "ignored-body"] 2
    (by decide) (by decide)
    (fun j hj => by
      interval_cases j <;> decide)

/-- C10 (amended): for a request line with only two space-separated tokens
the parser does not raise -- the tokens become method and path and the
version is undefined (`none`) -- and the connection layer still produces a
structured HTTP response; but the ROUTER itself can throw on such a
request when percent-decoding of the query string fails (a `URIError`
inside the GET handler), in which case the connection handler catches it
and answers the fixed 400 response. -/
theorem claim_c10 (env : Env) (data m p : String)
    (h2 : jsSplit " " ((jsSplit "\r\n" data).headD "") = [m, p]) :
    (parseRequest data).method = some m ∧
    (parseRequest data).path = some p ∧
    (parseRequest data).version = none ∧
    strStartsWith (connResponse env data) "HTTP/1.1 " = true ∧
    (route env (parseRequest data) = none →
      connResponse env data
        = createResponse 400 [("Content-Type", "text/plain")]
            "Bad Request - Invalid HTTP format") := by
  refine ⟨?_, ?_, ?_, connResponse_starts_http env data, ?_⟩
  · simp only [parseRequest]
    rw [h2]
    rfl
  · simp only [parseRequest]
    rw [h2]
    rfl
  · simp only [parseRequest]
    rw [h2]
    rfl
  · intro hr
    rw [connResponse, hr]

/-- C10 witness: `GET /` (two tokens, no version), through `claim_c10`:
parsed method `GET`, path `/`, undefined version, and a structured
response from the connection layer. -/
theorem claim_c10_witness :
    jsSplit " " ((jsSplit "\r\n" "GET /\r\n\r\n").headD "") = ["GET", "/"] ∧
    (parseRequest "GET /\r\n\r\n").method = some "GET" ∧
    (parseRequest "GET /\r\n\r\n").path = some "/" ∧
    (parseRequest "GET /\r\n\r\n").version = none ∧
    strStartsWith (connResponse defaultEnv "GET /\r\n\r\n") "HTTP/1.1 " = true := by
  refine ⟨by decide, ?_⟩
  have h := claim_c10 defaultEnv "GET /\r\n\r\n" "GET" "/" (by decide)
  exact ⟨h.1, h.2.1, h.2.2.1, h.2.2.2.1⟩

/-- C10 counterexample: the claim says the router returns a structured
response rather than throwing for every two-token request line; on
`GET /?a=%zz` (two tokens) the GET handler throws a `URIError` while
percent-decoding the query string, so the router returns no response (the
connection handler then answers 400). -/
theorem claim_c10_counterexample :
    jsSplit " " ((jsSplit "\r\n" "GET /?a=%zz\r\n\r\n").headD "") = ["GET", "/?a=%zz"] ∧
    route defaultEnv (parseRequest "GET /?a=%zz\r\n\r\n") = none ∧
    connResponse defaultEnv "GET /?a=%zz\r\n\r\n"
      = createResponse 400 [("Content-Type", "text/plain")]
          "Bad Request - Invalid HTTP format" := by
  exact ⟨by decide, by decide, by decide⟩
